import Mathlib

/-!
# Verification of the Buddy voice assistant core pipeline

A shallow embedding, in Lean 4, of the core components of the
`aisathish07/voice-assistant` repository:

* `assistant/conversation_memory.py` — `ConversationMemory` (SQLite-backed
  message store; embedded as a list of timestamped messages, the wall clock
  `datetime.now()` modelled as a strictly increasing counter),
* `assistant/llm_router.py` — `LLMRouter.chat` and its ordered backend
  fallback chain (each backend embedded as a function that either produces
  a string or fails, failure covering both "client not configured" and
  "raised an exception", exactly the two ways a `_chat_*` helper returns
  `None`),
* `assistant/stt.py` — `SpeechToText.listen_with_vad` (the VAD endpoint
  loop over audio chunks),
* `assistant/skill_router.py` — `SkillRouter.route` (keyword phase, then
  classifier phase),
* `src/main.py` — `VoiceAssistant._process_speech` (the PROCESSING step of
  the session state machine).

Stateful Python is embedded as explicit state passing; `try/except` blocks
that demote errors to `None` are embedded with `Option`/`Except`.
-/

/-! ## ConversationMemory (assistant/conversation_memory.py) -/

/-- One row of the `messages` table: role, content and insertion timestamp
(`datetime.now()` at insertion time, modelled as a natural number). -/
structure Message where
  role : String
  content : String
  timestamp : Nat
deriving DecidableEq, Repr

/-- The persistent conversation store.  `messages` is the table in insertion
order, `clock` models the wall clock (`datetime.now()` is assumed to move
strictly forward between successive `add` calls), `max_messages` is the
retrieval limit set at construction. -/
structure ConversationMemory where
  messages : List Message
  clock : Nat
  max_messages : Nat
deriving DecidableEq, Repr

/-- `ConversationMemory.add(role, content)`: INSERT a row whose timestamp is
the current clock value (success path of the `try` block). -/
def ConversationMemory.add (m : ConversationMemory) (role content : String) :
    ConversationMemory :=
  { m with
    messages := m.messages ++ [⟨role, content, m.clock⟩]
    clock := m.clock + 1 }

/-- `ConversationMemory.add_exchange(user_msg, assistant_msg)`: a user row
followed by an assistant row. -/
def ConversationMemory.add_exchange (m : ConversationMemory)
    (userMsg assistantMsg : String) : ConversationMemory :=
  (m.add "user" userMsg).add "assistant" assistantMsg

/-- The retrieval limit of `get_recent`: Python evaluates
`n if n else self.max_messages`, so both `None` and `0` fall back to
`max_messages`. -/
def effectiveLimit (maxMessages : Nat) : Option Nat → Nat
  | none => maxMessages
  | some 0 => maxMessages
  | some (k + 1) => k + 1

/-- `ORDER BY timestamp ASC` as a comparator. -/
def ascByTimestamp (a b : Message) : Bool := a.timestamp ≤ b.timestamp

/-- `ORDER BY timestamp DESC` as a comparator. -/
def descByTimestamp (a b : Message) : Bool := b.timestamp ≤ a.timestamp

/-- The rows produced by the query in `get_recent`, timestamps still attached:
`ORDER BY timestamp DESC LIMIT ?` in the subquery, then
`ORDER BY timestamp ASC` outside. -/
def ConversationMemory.get_recentMsgs (m : ConversationMemory) (n : Option Nat) :
    List Message :=
  let limit := effectiveLimit m.max_messages n
  let descending := m.messages.mergeSort descByTimestamp
  let recent := descending.take limit
  recent.mergeSort ascByTimestamp

/-- `ConversationMemory.get_recent(n)`: the query result projected to
`(role, content)` pairs, as the Python code returns dicts with only these
two keys. -/
def ConversationMemory.get_recent (m : ConversationMemory) (n : Option Nat) :
    List (String × String) :=
  (m.get_recentMsgs n).map (fun msg => (msg.role, msg.content))

/-- Well-formedness of a store state: rows carry strictly increasing
timestamps (successive `datetime.now()` calls differ) and every stored
timestamp is in the past of the current clock.  The empty store satisfies
this, and `add` preserves it. -/
def ConversationMemory.WF (m : ConversationMemory) : Prop :=
  m.messages.Pairwise (fun a b => a.timestamp < b.timestamp) ∧
  ∀ msg ∈ m.messages, msg.timestamp < m.clock

/-- The methods that the class `ConversationMemory` defines
(conversation_memory.py lines 18-147); Python attribute lookup on an
instance succeeds exactly for these names. -/
def ConversationMemory.methodNames : List String :=
  ["__init__", "_get_connection", "_init_db", "add", "add_exchange",
   "get_recent", "clear", "__len__"]

/-- Attribute lookup on a `ConversationMemory` instance: `some` when the
method exists, `none` when Python would raise `AttributeError`. -/
def ConversationMemory.hasMethod (name : String) : Bool :=
  ConversationMemory.methodNames.contains name

/-! ## LLMRouter (assistant/llm_router.py) -/

/-- One backend step of the fallback chain (`_chat_ollama`, `_chat_lmstudio`,
`_chat_groq`, `_chat_nvidia`, `_chat_openrouter`, `_chat_gemini`): reads the
conversation memory (via `_build_messages`) and the user message and either
produces the provider reply or returns `none`.  `none` covers each way a
step yields `None` in the code: client not configured, availability check
failed, or the API call raised and the `except` branch ran. -/
def BackendStep : Type := ConversationMemory → String → Option String

/-- The `if response is None` cascade of `LLMRouter.chat`: try each backend
in order, keep the first result that is not `None`. -/
def firstResult : List BackendStep → ConversationMemory → String → Option String
  | [], _, _ => none
  | b :: bs, mem, msg =>
    match b mem msg with
    | some s => some s
    | none => firstResult bs mem msg

/-- The router state: the ordered backend chain and the conversation memory.
The chain order is fixed by `chat`: Ollama, LM Studio, Groq, Nvidia,
OpenRouter, Gemini. -/
structure LLMRouter where
  backends : List BackendStep
  memory : ConversationMemory

/-- The final-failure reply of `LLMRouter.chat` (llm_router.py line 187). -/
def apologyString : String :=
  "All my brain connections are down. Please check your internet and API keys."

/-- `LLMRouter.chat(user_message)`: walk the chain; if every step produced
`None`, return the apology and leave the memory untouched; otherwise return
the first non-`None` result and persist the exchange with
`memory.add_exchange`.  Returns the reply together with the updated memory. -/
def LLMRouter.chat (r : LLMRouter) (userMessage : String) :
    String × ConversationMemory :=
  match firstResult r.backends r.memory userMessage with
  | none => (apologyString, r.memory)
  | some response => (response, r.memory.add_exchange userMessage response)

/-- `LLMRouter._chat_gemini(user_message)`: if the Gemini client is not
configured, return `None`; otherwise the body first evaluates
`self.memory.get_summary_context()`.  Attribute lookup of
`get_summary_context` on `ConversationMemory` is embedded via `hasMethod`:
when it fails, Python raises `AttributeError`, the `except` branch runs and
the step returns `None`.  Only if lookup succeeded would the request be sent
(`generate` abstracts the `generate_content` network call). -/
def LLMRouter.chatGemini (clientConfigured : Bool)
    (generate : String → Option String) (_mem : ConversationMemory)
    (userMessage : String) : Option String :=
  if clientConfigured = false then none
  else if ConversationMemory.hasMethod "get_summary_context" then
    generate userMessage
  else none

/-! ## SpeechToText.listen_with_vad (assistant/stt.py) -/

/-- One audio chunk pulled from the microphone queue, together with the
speech probability the Silero VAD assigns to it (`_check_speech`).  The
probability is modelled as a rational number in place of the float. -/
structure Chunk where
  bytes : List Nat
  prob : ℚ
deriving DecidableEq, Repr

/-- `VAD_THRESHOLD` (config.py): 0.5. -/
def VAD_THRESHOLD : ℚ := mkRat 1 2

/-- `SAMPLE_RATE` (config.py): 16000 Hz. -/
def SAMPLE_RATE : Nat := 16000

/-- `SILENCE_DURATION_MS` (config.py): 700. -/
def SILENCE_DURATION_MS : Nat := 700

/-- `MIN_SPEECH_DURATION_MS` (config.py): 250. -/
def MIN_SPEECH_DURATION_MS : Nat := 250

/-- `samples_per_chunk` (stt.py line 85): 512. -/
def samples_per_chunk : Nat := 512

/-- `silence_threshold = int(SILENCE_DURATION_MS * SAMPLE_RATE / 1000 / samples_per_chunk)`
(stt.py line 86); evaluates to 21. -/
def silence_threshold : Nat :=
  SILENCE_DURATION_MS * SAMPLE_RATE / 1000 / samples_per_chunk

/-- `min_speech_threshold = int(MIN_SPEECH_DURATION_MS * SAMPLE_RATE / 1000 / samples_per_chunk)`
(stt.py line 87); evaluates to 7. -/
def min_speech_threshold : Nat :=
  MIN_SPEECH_DURATION_MS * SAMPLE_RATE / 1000 / samples_per_chunk

/-- The loop state of `listen_with_vad`: the audio buffer and the two
counters, plus the `has_speech` flag. -/
structure VadState where
  buffer : List Chunk
  silence_samples : Nat
  speech_samples : Nat
  has_speech : Bool
deriving DecidableEq, Repr

/-- The initial loop state (stt.py lines 82-90). -/
def VadState.init : VadState :=
  { buffer := [], silence_samples := 0, speech_samples := 0, has_speech := false }

/-- One iteration of the `while` loop body for a chunk that was actually
received (`chunk is not None`): append the chunk to the buffer, then update
the counters according to `speech_prob > VAD_THRESHOLD`.  The second
component is `true` when the loop executes `break` (enough silence after
confirmed speech). -/
def vadStep (s : VadState) (c : Chunk) : VadState × Bool :=
  let s := { s with buffer := s.buffer ++ [c] }
  if VAD_THRESHOLD < c.prob then
    let speech := s.speech_samples + 1
    ({ s with
        speech_samples := speech
        silence_samples := 0
        has_speech := if min_speech_threshold ≤ speech then true else s.has_speech },
     false)
  else
    if s.has_speech then
      let sil := s.silence_samples + 1
      ({ s with silence_samples := sil }, decide (silence_threshold ≤ sil))
    else
      (s, false)

/-- Run the listening loop over the incoming chunk stream.  The list is the
sequence of chunks the microphone delivers before `max_duration` elapses
(`get_audio_chunk` timeouts yield no chunk and leave the state unchanged,
so they are not represented); the loop stops early on `break`. -/
def runVad : List Chunk → VadState → VadState
  | [], s => s
  | c :: rest, s =>
    match vadStep s c with
    | (s', true) => s'
    | (s', false) => runVad rest s'

/-- `listen_with_vad`: run the loop; if speech was never confirmed return
`None`, otherwise return the bytes-join of `self._audio_buffer` — the concatenation
of every buffered chunk. -/
def listen_with_vad (chunks : List Chunk) : Option (List Nat) :=
  let s := runVad chunks VadState.init
  if s.has_speech then some ((s.buffer.map Chunk.bytes).flatten) else none

/-- The number of speech-classified chunks in a stream. -/
def countSpeech (chunks : List Chunk) : Nat :=
  (chunks.filter (fun c => decide (VAD_THRESHOLD < c.prob))).length

/-- The longest run of consecutive speech-classified chunks in a stream
(used to state what the spec asserts about confirmation). -/
def maxConsecSpeech (chunks : List Chunk) : Nat :=
  (chunks.foldl
    (fun acc c =>
      if VAD_THRESHOLD < c.prob then (max acc.1 (acc.2 + 1), acc.2 + 1)
      else (acc.1, 0))
    ((0 : Nat), (0 : Nat))).1

/-! ## SkillRouter (assistant/skill_router.py) and SkillResponse -/

/-- The `SkillResponse` dataclass (assistant/skill_response.py); `timeout`
is a float in the code, modelled as a rational. -/
structure SkillResponse where
  text : String
  continue_listening : Bool
  timeout : ℚ
deriving DecidableEq, Repr

/-- `Union[str, SkillResponse]` — the two shapes a skill reply can take. -/
inductive Response where
  | plain (s : String)
  | structured (r : SkillResponse)
deriving DecidableEq, Repr

/-- Python truthiness of a reply: `None` is handled by the caller; a plain
string is falsy exactly when empty; a `SkillResponse` instance (a dataclass
with neither `__bool__` nor `__len__`) is always truthy. -/
def Response.truthy : Response → Bool
  | .plain s => !(s == "")
  | .structured _ => true

/-- `str(response_text)` / `SkillResponse.__str__`: the text to speak. -/
def Response.finalText : Response → String
  | .plain s => s
  | .structured r => r.text

/-- Whether the reply itself requested continuation: plain strings imply
`continue_listening = False`. -/
def Response.requestedContinue : Response → Bool
  | .plain _ => false
  | .structured r => r.continue_listening

/-- Does the character list `n` occur at the start of `hay`? (helper for
the Python substring operator). -/
def listStartsWith : List Char → List Char → Bool
  | [], _ => true
  | _ :: _, [] => false
  | a :: as, b :: bs => a == b && listStartsWith as bs

/-- Does the character list `n` occur contiguously anywhere in `hay`?
(helper for the Python substring operator). -/
def listContainsSub : List Char → List Char → Bool
  | n, [] => n.isEmpty
  | n, c :: rest => listStartsWith n (c :: rest) || listContainsSub n rest

/-- The Python test `needle in hay` on strings: contiguous substring containment. -/
def pyStrIn (needle hay : String) : Bool :=
  listContainsSub needle.toList hay.toList

/-- The Python method `s.lower()`: lowercase every character. -/
def pyLower (s : String) : String :=
  String.mk (s.toList.map Char.toLower)

/-- The Python method `s.endswith(suffix)`: suffix test. -/
def pyEndsWith (s suffixStr : String) : Bool :=
  listStartsWith suffixStr.toList.reverse s.toList.reverse

/-- The context dict `_process_speech` passes to `route`:
`{"confidence": confidence}`. -/
structure Context where
  confidence : ℚ
deriving DecidableEq, Repr

/-- A loaded skill as the router sees it: `name`, `keywords`, and an async
`handle(text, context)` that either returns a reply (possibly `None`) or
raises (`Except.error`). -/
structure Skill where
  name : String
  keywords : List String
  handle : String → Context → Except String (Option Response)

/-- `BaseSkill.matches(text)` (skills/base_skill.py lines 41-47): some
keyword, lowercased, occurs in the lowercased input. -/
def Skill.matches (sk : Skill) (text : String) : Bool :=
  sk.keywords.any (fun kw => pyStrIn (pyLower kw) (pyLower text))

/-- The router state: `self.skills`, a name-keyed mapping in insertion
order. -/
structure SkillRouter where
  skills : List (String × Skill)

/-- `SkillRouter._keyword_match(text)`: scan `self.skills.values()` in
order, return the first skill whose `matches` succeeds. -/
def SkillRouter.keyword_match (r : SkillRouter) (text : String) : Option Skill :=
  match r.skills.find? (fun p => p.2.matches text) with
  | some p => some p.2
  | none => none

/-- Dictionary lookup `self.skills[name]` (and the membership test
`name in self.skills`). -/
def SkillRouter.lookupSkill (r : SkillRouter) (name : String) : Option Skill :=
  match r.skills.find? (fun p => p.1 == name) with
  | some p => some p.2
  | none => none

/-- The observable outcome of one `route` call: the returned value, the
names of the skills whose `handle` coroutine was awaited, and whether the
classification phase (`_llm_classify`) was entered. -/
structure RouteOutcome where
  result : Option Response
  invoked : List String
  classifierQueried : Bool

/-- `SkillRouter.route(text, context)`.  `classifierOut` abstracts the value
`_llm_classify(text)` would return (it depends on a network call to the
classifier model); it is consulted only when the keyword phase found no
match.  A `handle` that raises is caught (`except` prints and returns
`None`). -/
def SkillRouter.route (r : SkillRouter) (classifierOut : Option String)
    (text : String) (ctx : Context) : RouteOutcome :=
  match r.keyword_match text with
  | some sk =>
    { result :=
        match sk.handle text ctx with
        | Except.ok res => res
        | Except.error _ => none
      invoked := [sk.name]
      classifierQueried := false }
  | none =>
    match classifierOut with
    | some cname =>
      if cname == "" then
        { result := none, invoked := [], classifierQueried := true }
      else
        match r.lookupSkill cname with
        | some sk =>
          { result :=
              match sk.handle text ctx with
              | Except.ok res => res
              | Except.error _ => none
            invoked := [sk.name]
            classifierQueried := true }
        | none => { result := none, invoked := [], classifierQueried := true }
    | none => { result := none, invoked := [], classifierQueried := true }

/-! ## VoiceAssistant._process_speech (src/main.py) -/

/-- The five session states (`AssistantState` in main.py). -/
inductive AssistantState where
  | IDLE
  | WAKE
  | LISTENING
  | PROCESSING
  | SPEAKING
deriving DecidableEq, Repr

/-- `VoiceAssistant.FOLLOWUP_PHRASES` (main.py lines 40-44). -/
def FOLLOWUP_PHRASES : List String :=
  ["what would you like", "what should i", "would you like me to",
   "anything else", "what else", "tell me more",
   "which one", "please specify", "can you clarify"]

/-- `VoiceAssistant._should_continue_listening(text)` (main.py lines
197-199): trailing question mark, or any follow-up phrase occurs in the
lowercased text. -/
def should_continue_listening (text : String) : Bool :=
  pyEndsWith text "?" || FOLLOWUP_PHRASES.any (fun p => pyStrIn p (pyLower text))

/-- The line `if not response_text: response_text = self.llm.chat(text)`:
resolve the skill-router result against the LLM fallback.  `chatResult`
abstracts what `llm.chat(text)` would return; the Boolean records whether
that call was made. -/
def resolveResponse (routeResult : Option Response) (chatResult : String) :
    Response × Bool :=
  match routeResult with
  | none => (Response.plain chatResult, true)
  | some r => if r.truthy then (r, false) else (Response.plain chatResult, true)

/-- The observable outcome of `_process_speech` once the transcript is in
hand: the `_transition` targets executed in order (the caller has already
moved the session to PROCESSING), whether `skill_router.route` ran, whether
`llm.chat` ran, and the text handed to TTS. -/
structure ProcessOutcome where
  transitions : List AssistantState
  routerInvoked : Bool
  llmChatInvoked : Bool
  spoken : Option String
deriving DecidableEq, Repr

/-- `VoiceAssistant._process_speech` after transcription (main.py lines
144-195), as a function of the transcript `(text, confidence)` and of the
replies the two downstream calls would give (`routeResult` for
`skill_router.route`, `chatResult` for `llm.chat`).  The guard
`if not text or confidence < 0.4` rejects the utterance; otherwise the
route result is resolved, the continuation heuristic applied, and the
session moves SPEAKING → (LISTENING or IDLE). -/
def process_speech (text : String) (confidence : ℚ)
    (routeResult : Option Response) (chatResult : String) : ProcessOutcome :=
  if text = "" ∨ confidence < mkRat 2 5 then
    { transitions := [AssistantState.IDLE]
      routerInvoked := false
      llmChatInvoked := false
      spoken := none }
  else
    let resolved := resolveResponse routeResult chatResult
    let final_text := resolved.1.finalText
    let should_continue :=
      if resolved.1.requestedContinue then true
      else should_continue_listening final_text
    { transitions :=
        [AssistantState.SPEAKING,
         if should_continue then AssistantState.LISTENING else AssistantState.IDLE]
      routerInvoked := true
      llmChatInvoked := resolved.2
      spoken := some final_text }

/-! ## Concrete instances used by the theorems below -/

/-- A fresh, empty conversation store (clock at 0, default retrieval limit
100 from `ConversationMemory.__init__`). -/
def memZero : ConversationMemory := { messages := [], clock := 0, max_messages := 100 }

/-- A router whose first backend answers with the empty string and whose
second would answer `"hello"` — e.g. a provider whose API returned
`content = ""`. -/
def routerEmptyThenHello : LLMRouter :=
  { backends := [fun _ _ => some "", fun _ _ => some "hello"], memory := memZero }

/-- A router whose single backend answers with the empty string. -/
def routerEmptyOnly : LLMRouter :=
  { backends := [fun _ _ => some ""], memory := memZero }

/-- A router whose backends all fail outright (unconfigured or raising). -/
def routerAllNone : LLMRouter :=
  { backends := [fun _ _ => none, fun _ _ => none], memory := memZero }

/-- A chunk classified as speech (probability 1 > VAD_THRESHOLD). -/
def speechChunk : Chunk := { bytes := [1], prob := 1 }

/-- A chunk classified as silence (probability 0 ≤ VAD_THRESHOLD). -/
def silenceChunk : Chunk := { bytes := [2], prob := 0 }

/-- Six speech chunks, one silence chunk, then a seventh speech chunk:
seven speech chunks in total but never seven in a row. -/
def sporadicChunks : List Chunk :=
  List.replicate 6 speechChunk ++ [silenceChunk, speechChunk]

/-- Seven consecutive speech chunks. -/
def sevenSpeech : List Chunk := List.replicate 7 speechChunk

/-- A time skill whose handler always succeeds. -/
def timeSkill : Skill :=
  { name := "time", keywords := ["time", "clock"],
    handle := fun _ _ => Except.ok (some (Response.plain "14:32")) }

/-- A skill whose handler always raises. -/
def brokenSkill : Skill :=
  { name := "boom", keywords := ["boom"],
    handle := fun _ _ => Except.error "RuntimeError" }

/-- A router with the two demo skills registered. -/
def demoSkillRouter : SkillRouter :=
  { skills := [("time", timeSkill), ("boom", brokenSkill)] }

/-! ## Helper lemmas -/

/-- In a list sorted by non-decreasing timestamp, an element strictly above
every other element sits at the end. -/
theorem getLast?_eq_of_max {l : List Message} {x : Message}
    (hp : l.Pairwise (fun a b => a.timestamp ≤ b.timestamp))
    (hx : x ∈ l) (hm : ∀ y ∈ l, y = x ∨ y.timestamp < x.timestamp) :
    l.getLast? = some x := by
  induction l with
  | nil => cases hx
  | cons a t ih =>
    cases t with
    | nil =>
      have hxa : x = a := by simpa using hx
      simp [hxa]
    | cons b t' =>
      have hxbt : x ∈ b :: t' := by
        rcases List.mem_cons.mp hx with hxa | hxm
        · rcases hm b (by simp) with hb | hb
          · rw [hb]; simp
          · have hab : a.timestamp ≤ b.timestamp :=
              List.rel_of_pairwise_cons hp (by simp)
            rw [hxa] at hb
            exact absurd hb (by omega)
        · exact hxm
      have hrec := ih (List.Pairwise.of_cons hp) hxbt
        (fun y hy => hm y (List.mem_cons_of_mem a hy))
      rw [List.getLast?_cons_cons]
      exact hrec

/-- In a list sorted by non-increasing timestamp, an element strictly above
every other element sits at the front. -/
theorem eq_cons_of_max {l : List Message} {x : Message}
    (hp : l.Pairwise (fun a b => b.timestamp ≤ a.timestamp))
    (hx : x ∈ l) (hm : ∀ y ∈ l, y = x ∨ y.timestamp < x.timestamp) :
    ∃ t, l = x :: t := by
  cases l with
  | nil => cases hx
  | cons a t =>
    refine ⟨t, ?_⟩
    rcases hm a (by simp) with ha | ha
    · rw [ha]
    · rcases List.mem_cons.mp hx with hxa | hxm
      · rw [hxa] at ha
        exact absurd ha (by omega)
      · have hba : x.timestamp ≤ a.timestamp :=
          List.rel_of_pairwise_cons hp hxm
        exact absurd ha (by omega)

/-- The buffer accumulated by the listening loop is always the already
buffered audio followed by an initial segment of the incoming stream: no
received chunk is skipped or reordered before the loop stops. -/
theorem runVad_buffer (chunks : List Chunk) :
    ∀ s : VadState, ∃ k, (runVad chunks s).buffer = s.buffer ++ chunks.take k := by
  induction chunks with
  | nil => intro s; exact ⟨0, by simp [runVad]⟩
  | cons c rest ih =>
    intro s
    show ∃ k, (match vadStep s c with
      | (s', true) => s'
      | (s', false) => runVad rest s').buffer = s.buffer ++ (c :: rest).take k
    rcases hstep : vadStep s c with ⟨s', brk⟩
    have hbuf : s'.buffer = s.buffer ++ [c] := by
      simp only [vadStep] at hstep
      split at hstep
      · cases hstep; rfl
      · split at hstep
        · cases hstep; rfl
        · cases hstep; rfl
    cases brk with
    | true =>
      exact ⟨1, by simpa using hbuf⟩
    | false =>
      rcases ih s' with ⟨k, hk⟩
      exact ⟨k + 1, by simp [hk, hbuf]⟩

/-- A speech chunk increments the count. -/
theorem countSpeech_cons_pos {c : Chunk} (rest : List Chunk)
    (hc : VAD_THRESHOLD < c.prob) :
    countSpeech (c :: rest) = countSpeech rest + 1 := by
  simp [countSpeech, List.filter_cons, hc]

/-- A silence chunk leaves the count unchanged. -/
theorem countSpeech_cons_neg {c : Chunk} (rest : List Chunk)
    (hc : ¬ VAD_THRESHOLD < c.prob) :
    countSpeech (c :: rest) = countSpeech rest := by
  simp [countSpeech, List.filter_cons, hc]

/-- Invariant of the listening loop: `speech_samples` is never reset, so
`has_speech` at the end records whether the total number of
speech-classified chunks seen so far reached `min_speech_threshold`. -/
theorem runVad_has_speech (chunks : List Chunk) :
    ∀ s : VadState,
      s.has_speech = decide (min_speech_threshold ≤ s.speech_samples) →
      (runVad chunks s).has_speech =
        decide (min_speech_threshold ≤ s.speech_samples + countSpeech chunks) := by
  induction chunks with
  | nil =>
    intro s h
    simpa [runVad, countSpeech] using h
  | cons c rest ih =>
    intro s h
    have hgoal : runVad (c :: rest) s = (match vadStep s c with
        | (s', true) => s'
        | (s', false) => runVad rest s') := rfl
    rw [hgoal]
    by_cases hc : VAD_THRESHOLD < c.prob
    · have hstep : vadStep s c =
          ({ buffer := s.buffer ++ [c]
             silence_samples := 0
             speech_samples := s.speech_samples + 1
             has_speech :=
               if min_speech_threshold ≤ s.speech_samples + 1 then true
               else s.has_speech }, false) := by
        simp [vadStep, hc]
      rw [hstep]
      have h' := ih
        { buffer := s.buffer ++ [c]
          silence_samples := 0
          speech_samples := s.speech_samples + 1
          has_speech :=
            if min_speech_threshold ≤ s.speech_samples + 1 then true
            else s.has_speech }
        (by
          by_cases hmin : min_speech_threshold ≤ s.speech_samples + 1
          · simp [hmin]
          · have hlt : ¬ min_speech_threshold ≤ s.speech_samples := by omega
            simp [hmin, h, hlt])
      rw [countSpeech_cons_pos rest hc]
      have harith : s.speech_samples + (countSpeech rest + 1) =
          s.speech_samples + 1 + countSpeech rest := by omega
      rw [harith]
      exact h'
    · by_cases hs : s.has_speech = true
      · have hmin : min_speech_threshold ≤ s.speech_samples := by
          rw [hs] at h
          exact of_decide_eq_true h.symm
        have hstep : vadStep s c =
            ({ buffer := s.buffer ++ [c]
               silence_samples := s.silence_samples + 1
               speech_samples := s.speech_samples
               has_speech := s.has_speech },
             decide (silence_threshold ≤ s.silence_samples + 1)) := by
          simp [vadStep, hc, hs]
        rw [hstep]
        rw [countSpeech_cons_neg rest hc]
        by_cases hbrk : silence_threshold ≤ s.silence_samples + 1
        · simp only [hbrk, decide_eq_true_eq, decide_True]
          have : min_speech_threshold ≤ s.speech_samples + countSpeech rest := by
            omega
          simp [hs, this]
        · simp only [hbrk, decide_False]
          exact ih _ (by simpa using h)
      · have hstep : vadStep s c =
            ({ buffer := s.buffer ++ [c]
               silence_samples := s.silence_samples
               speech_samples := s.speech_samples
               has_speech := s.has_speech }, false) := by
          simp [vadStep, hc, hs]
        rw [hstep]
        rw [countSpeech_cons_neg rest hc]
        exact ih _ (by simpa using h)

/-- The chain yields nothing exactly when every backend step fails. -/
theorem firstResult_eq_none_iff (bs : List BackendStep)
    (mem : ConversationMemory) (msg : String) :
    firstResult bs mem msg = none ↔ ∀ b ∈ bs, b mem msg = none := by
  induction bs with
  | nil => simp [firstResult]
  | cons b bs ih =>
    constructor
    · intro h b' hb'
      rcases List.mem_cons.mp hb' with rfl | hmem
      · revert h
        simp only [firstResult]
        cases b' mem msg <;> simp
      · revert h
        simp only [firstResult]
        cases hb : b mem msg
        · intro h
          exact (ih.mp h) b' hmem
        · simp
    · intro h
      have hb : b mem msg = none := h b (by simp)
      simp only [firstResult, hb]
      exact ih.mpr (fun b' hb' => h b' (List.mem_cons_of_mem b hb'))

/-- **C1 (counterexample).**  The claim says an empty backend result counts
as a failure, advances the chain, and that `chat` therefore always returns
a non-empty string.  On the code, a backend that returns `""` makes
`response` non-`None`, so the chain stops and `chat` returns the empty
string: with a first backend answering `""` and a second answering
`"hello"`, `chat` returns `""`, which is empty and is not the second
answer of the second backend. -/
theorem chat_returns_empty_backend_result :
    (routerEmptyThenHello.chat "hi").1 = "" ∧
    (routerEmptyThenHello.chat "hi").1 ≠ "hello" := by
  constructor
  · rfl
  · decide

/-- **C1 (amended).**  `LLMRouter.chat` is total (the embedding is a Lean
function; every backend exception is absorbed inside the backend step) and
returns: the first backend result in chain order when some backend returns
one — even when that result is the empty string, in which case the empty
string itself is returned and the chain does not advance — and otherwise
(every backend returned `None`) the fixed non-empty apology string. -/
theorem chat_first_result_or_apology (r : LLMRouter) (msg : String) :
    ((∀ b ∈ r.backends, b r.memory msg = none) →
      r.chat msg = (apologyString, r.memory) ∧ apologyString ≠ "") ∧
    (∀ s, firstResult r.backends r.memory msg = some s → (r.chat msg).1 = s) := by
  constructor
  · intro hall
    have hnone : firstResult r.backends r.memory msg = none :=
      (firstResult_eq_none_iff r.backends r.memory msg).mpr hall
    refine ⟨?_, by decide⟩
    simp [LLMRouter.chat, hnone]
  · intro s hs
    simp [LLMRouter.chat, hs]

/-- Witness for the amended C1: a router whose two backends both fail. -/
theorem chat_first_result_or_apology_witness :
    routerAllNone.chat "hi" = (apologyString, routerAllNone.memory) ∧
    apologyString ≠ "" :=
  (chat_first_result_or_apology routerAllNone "hi").1
    (by
      intro b hb
      simp only [routerAllNone, List.mem_cons, List.not_mem_nil, or_false] at hb
      rcases hb with rfl | rfl <;> rfl)

/-- **C3.**  `_chat_gemini` always fails: `ConversationMemory` defines no
method `get_summary_context`, so when a client is configured the body
raises `AttributeError` before any request is made and the `except` branch
returns `None`; with no client it returns `None` immediately.  The last
backend of the fallback chain therefore never produces a response,
whatever the memory state, the message, or what the network would have
answered. -/
theorem chatGemini_always_none (cfg : Bool) (generate : String → Option String)
    (mem : ConversationMemory) (msg : String) :
    LLMRouter.chatGemini cfg generate mem msg = none ∧
    ConversationMemory.hasMethod "get_summary_context" = false := by
  refine ⟨?_, by decide⟩
  cases cfg
  · rfl
  · simp only [LLMRouter.chatGemini]
    rw [if_neg (by decide)]
    rw [if_neg (by decide)]

/-- **C4 (counterexample).**  Under the notion of failure in the claim (which,
per the specification, includes a backend returning an empty result), a
router whose only backend returns `""` has every backend failing; yet
`chat` does not return the apology string and does append an exchange to
the store. -/
theorem chat_empty_result_appends_exchange :
    (routerEmptyOnly.chat "hi").1 ≠ apologyString ∧
    (routerEmptyOnly.chat "hi").2 ≠ routerEmptyOnly.memory := by
  constructor
  · decide
  · decide

/-- **C4 (amended).**  If every backend fails in the sense of yielding
`None` (unconfigured, availability check failed, or raised), `chat`
returns the fixed apology string and the conversation store is unchanged;
whenever some backend yields a result (the first one in chain order, even
an empty string), exactly that user/assistant exchange is appended via
`add_exchange`. -/
theorem chat_apology_iff_all_none (r : LLMRouter) (msg : String) :
    ((∀ b ∈ r.backends, b r.memory msg = none) →
      r.chat msg = (apologyString, r.memory)) ∧
    (∀ s, firstResult r.backends r.memory msg = some s →
      r.chat msg = (s, r.memory.add_exchange msg s)) := by
  constructor
  · intro hall
    have hnone : firstResult r.backends r.memory msg = none :=
      (firstResult_eq_none_iff r.backends r.memory msg).mpr hall
    simp [LLMRouter.chat, hnone]
  · intro s hs
    simp [LLMRouter.chat, hs]

/-- Witness for the amended C4: with both backends failing the store stays
as it was and the apology comes back. -/
theorem chat_apology_iff_all_none_witness :
    routerAllNone.chat "bye" = (apologyString, routerAllNone.memory) :=
  (chat_apology_iff_all_none routerAllNone "bye").1
    (by
      intro b hb
      simp only [routerAllNone, List.mem_cons, List.not_mem_nil, or_false] at hb
      rcases hb with rfl | rfl <;> rfl)

/-- **C2 (counterexample).**  The claim says speech is confirmed only when
the count of *consecutive* speech chunks reaches `min_speech_threshold`
(= 7 with the configured constants), the counter being reset by every
silence chunk.  On the code `speech_samples` is never reset: six speech
chunks, one silence chunk, then a seventh speech chunk confirm speech
(`has_speech = true`, counter at 7) although the longest consecutive run
is 6 < 7. -/
theorem has_speech_without_consecutive_run :
    (runVad sporadicChunks VadState.init).has_speech = true ∧
    (runVad sporadicChunks VadState.init).speech_samples = 7 ∧
    maxConsecSpeech sporadicChunks < min_speech_threshold := by
  refine ⟨by decide, by decide, by decide⟩

/-- **C2 (amended).**  `listen_with_vad` confirms speech (`has_speech`)
exactly when the *total* number of speech-classified chunks observed
reaches `min_speech_threshold`: the speech counter is incremented on
speech chunks and left untouched (not reset) on silence chunks, so
sporadic non-consecutive noise chunks accumulate and can confirm
speech. -/
theorem has_speech_iff_total_speech_count (chunks : List Chunk) :
    (runVad chunks VadState.init).has_speech =
      decide (min_speech_threshold ≤ countSpeech chunks) := by
  have h := runVad_has_speech chunks VadState.init (by decide)
  simpa [VadState.init] using h

/-- **C10.**  Whenever `listen_with_vad` confirms speech, the utterance it
returns is the byte concatenation of the audio buffer, and that buffer is an initial
segment of the incoming chunk stream: every chunk received during the
listening window, starting from the very first one and regardless of its
speech/silence classification, is retained in order. -/
theorem utterance_is_all_buffered_chunks (chunks : List Chunk) (bs : List Nat)
    (h : listen_with_vad chunks = some bs) :
    ∃ k, (runVad chunks VadState.init).buffer = chunks.take k ∧
      bs = ((chunks.take k).map Chunk.bytes).flatten := by
  rcases runVad_buffer chunks VadState.init with ⟨k, hk⟩
  have hbuf : (runVad chunks VadState.init).buffer = chunks.take k := by
    simpa [VadState.init] using hk
  refine ⟨k, hbuf, ?_⟩
  simp only [listen_with_vad] at h
  by_cases hs : (runVad chunks VadState.init).has_speech = true
  · rw [if_pos hs] at h
    have := Option.some.inj h
    rw [← this, hbuf]
  · rw [if_neg hs] at h
    cases h

/-- Witness for C10: seven speech chunks, each carrying the byte `1`. -/
theorem utterance_is_all_buffered_chunks_witness :
    listen_with_vad sevenSpeech = some [1, 1, 1, 1, 1, 1, 1] ∧
    ∃ k, (runVad sevenSpeech VadState.init).buffer = sevenSpeech.take k ∧
      [1, 1, 1, 1, 1, 1, 1] = ((sevenSpeech.take k).map Chunk.bytes).flatten :=
  ⟨by decide,
   utterance_is_all_buffered_chunks sevenSpeech [1, 1, 1, 1, 1, 1, 1] (by decide)⟩

/-- **C6.**  `route` awaits the `handle` of at most one skill per call, and
whenever the keywords of some registered skill match the input, the keyword
phase wins: the classification phase is never entered and the single
invoked handler is the keyword-matched skill. -/
theorem route_at_most_one_handler (r : SkillRouter) (cOut : Option String)
    (text : String) (ctx : Context) :
    (r.route cOut text ctx).invoked.length ≤ 1 ∧
    ((∃ p ∈ r.skills, p.2.matches text = true) →
      (r.route cOut text ctx).classifierQueried = false ∧
      ∃ sk, r.keyword_match text = some sk ∧
        (r.route cOut text ctx).invoked = [sk.name]) := by
  cases hkm : r.keyword_match text with
  | some sk =>
    refine ⟨by simp [SkillRouter.route, hkm], fun _ => ?_⟩
    exact ⟨by simp [SkillRouter.route, hkm], sk, rfl,
      by simp [SkillRouter.route, hkm]⟩
  | none =>
    constructor
    · cases cOut with
      | none => simp [SkillRouter.route, hkm]
      | some cname =>
        by_cases hc : (cname == "") = true
        · simp [SkillRouter.route, hkm, hc]
        · cases hlk : r.lookupSkill cname with
          | some sk =>
            simp [SkillRouter.route, hkm, hc, hlk]
          | none =>
            simp [SkillRouter.route, hkm, hc, hlk]
    · rintro ⟨p, hp, hmatch⟩
      exfalso
      have hfind : r.skills.find? (fun q => q.2.matches text) = none := by
        unfold SkillRouter.keyword_match at hkm
        cases hf : r.skills.find? (fun q => q.2.matches text)
        · rfl
        · rw [hf] at hkm
          cases hkm
      exact (List.find?_eq_none.mp hfind p hp) hmatch

/-- Witness for C6: the keyword "time" matches, so the classifier answer
"boom" is ignored and only the time skill runs. -/
theorem route_at_most_one_handler_witness :
    (demoSkillRouter.route (some "boom") "what TIME is it" ⟨1⟩).invoked.length ≤ 1 ∧
    ((demoSkillRouter.route (some "boom") "what TIME is it" ⟨1⟩).classifierQueried = false ∧
      ∃ sk, demoSkillRouter.keyword_match "what TIME is it" = some sk ∧
        (demoSkillRouter.route (some "boom") "what TIME is it" ⟨1⟩).invoked = [sk.name]) :=
  ⟨(route_at_most_one_handler demoSkillRouter (some "boom") "what TIME is it" ⟨1⟩).1,
   (route_at_most_one_handler demoSkillRouter (some "boom") "what TIME is it" ⟨1⟩).2
     ⟨("time", timeSkill), List.Mem.head _, by decide⟩⟩

/-- **C9.**  In both phases, a `handle` that raises is caught at the router
boundary and demoted to "no match": `route` returns `None` instead of
propagating, so the caller falls through to the general language-model
path. -/
theorem route_handler_error_returns_none (r : SkillRouter) (cOut : Option String)
    (text : String) (ctx : Context) (sk : Skill) (e : String) :
    (r.keyword_match text = some sk → sk.handle text ctx = Except.error e →
      (r.route cOut text ctx).result = none) ∧
    (r.keyword_match text = none → ∀ cname, cOut = some cname →
      r.lookupSkill cname = some sk → sk.handle text ctx = Except.error e →
      (r.route cOut text ctx).result = none) := by
  constructor
  · intro hkm he
    simp [SkillRouter.route, hkm, he]
  · intro hkm cname hc hlk he
    subst hc
    by_cases hcn : (cname == "") = true
    · simp [SkillRouter.route, hkm, hcn]
    · simp [SkillRouter.route, hkm, hcn, hlk, he]

/-- Witness for C9: the broken skill matches by keyword, its handler
raises, and `route` returns `None`. -/
theorem route_handler_error_returns_none_witness :
    (demoSkillRouter.route none "boom now" ⟨1⟩).result = none :=
  (route_handler_error_returns_none demoSkillRouter none "boom now" ⟨1⟩
    brokenSkill "RuntimeError").1 rfl rfl

/-- **C5.**  If the transcript text is empty or its confidence is below the
0.4 floor, `_process_speech` performs a single transition (to IDLE, from
the PROCESSING state the caller just entered) and returns: neither the
skill router nor the response provider is invoked and nothing is spoken. -/
theorem process_speech_rejects_low_confidence (text : String) (confidence : ℚ)
    (routeResult : Option Response) (chatResult : String)
    (h : text = "" ∨ confidence < mkRat 2 5) :
    process_speech text confidence routeResult chatResult =
      { transitions := [AssistantState.IDLE], routerInvoked := false,
        llmChatInvoked := false, spoken := none } := by
  simp only [process_speech]
  rw [if_pos h]

/-- Witness for C5: a confident transcript that is empty, and nothing
downstream runs. -/
theorem process_speech_rejects_low_confidence_witness :
    process_speech "" 1 (some (Response.plain "ignored")) "ignored" =
      { transitions := [AssistantState.IDLE], routerInvoked := false,
        llmChatInvoked := false, spoken := none } :=
  process_speech_rejects_low_confidence "" 1 (some (Response.plain "ignored"))
    "ignored" (Or.inl rfl)

/-- **C8.**  For an accepted transcript whose resolved reply did not itself
request continuation, the session keeps listening (SPEAKING → LISTENING
instead of SPEAKING → IDLE) exactly when the final text ends with a
question mark or contains one of the configured follow-up phrases. -/
theorem process_speech_continuation_heuristic (text : String) (confidence : ℚ)
    (routeResult : Option Response) (chatResult : String)
    (hacc : ¬ (text = "" ∨ confidence < mkRat 2 5))
    (hnoreq : (resolveResponse routeResult chatResult).1.requestedContinue = false) :
    (process_speech text confidence routeResult chatResult).transitions =
      [AssistantState.SPEAKING,
        if should_continue_listening (resolveResponse routeResult chatResult).1.finalText
        then AssistantState.LISTENING else AssistantState.IDLE] ∧
    ((process_speech text confidence routeResult chatResult).transitions.getLast? =
        some AssistantState.LISTENING ↔
      (pyEndsWith (resolveResponse routeResult chatResult).1.finalText "?" ||
        FOLLOWUP_PHRASES.any (fun p =>
          pyStrIn p (pyLower (resolveResponse routeResult chatResult).1.finalText)))
        = true) := by
  have htrans : (process_speech text confidence routeResult chatResult).transitions =
      [AssistantState.SPEAKING,
        if should_continue_listening (resolveResponse routeResult chatResult).1.finalText
        then AssistantState.LISTENING else AssistantState.IDLE] := by
    simp only [process_speech]
    rw [if_neg hacc]
    simp [hnoreq]
  refine ⟨htrans, ?_⟩
  rw [htrans]
  by_cases hscl :
      should_continue_listening (resolveResponse routeResult chatResult).1.finalText = true
  · rw [if_pos hscl]
    simp only [List.getLast?]
    constructor
    · intro _
      rw [← hscl]
      rfl
    · intro _
      rfl
  · rw [if_neg hscl]
    constructor
    · intro h
      exact absurd h (by decide)
    · intro h
      exact absurd (by rw [should_continue_listening]; exact h) hscl

/-- Witness for C8 (Scenario 5): the handler answers
`SkillResponse(text := "Which song?", continue_listening := False)`; the
trailing question mark forces continuation and the session proceeds to
LISTENING. -/
theorem process_speech_continuation_heuristic_witness :
    (process_speech "play a song" 1
        (some (Response.structured ⟨"Which song?", false, 10⟩)) "x").transitions.getLast? =
      some AssistantState.LISTENING :=
  ((process_speech_continuation_heuristic "play a song" 1
      (some (Response.structured ⟨"Which song?", false, 10⟩)) "x"
      (by decide) rfl).2).mpr (by decide)

/-- **C7.**  After `add(role, content)` on a well-formed store, `get_recent`
returns rows in chronological non-decreasing timestamp order, and (as long
as the effective retrieval limit is positive) the newest returned row is
exactly the row just inserted, its content byte-for-byte what was stored. -/
theorem add_get_recent_chronological (m : ConversationMemory) (hwf : m.WF)
    (role content : String) (n : Option Nat)
    (hlim : 0 < effectiveLimit m.max_messages n) :
    ((m.add role content).get_recentMsgs n).Pairwise
      (fun a b => a.timestamp ≤ b.timestamp) ∧
    ((m.add role content).get_recentMsgs n).getLast? =
      some ⟨role, content, m.clock⟩ ∧
    ((m.add role content).get_recent n).getLast? = some (role, content) := by
  obtain ⟨hsorted, hclock⟩ := hwf
  have hmax : ∀ y ∈ (m.add role content).messages,
      y = (⟨role, content, m.clock⟩ : Message) ∨ y.timestamp < m.clock := by
    intro y hy
    rcases List.mem_append.mp hy with hy1 | hy2
    · exact Or.inr (hclock y hy1)
    · left
      simpa using hy2
  have transDesc : ∀ a b c : Message,
      descByTimestamp a b → descByTimestamp b c → descByTimestamp a c := by
    intro a b c hab hbc
    simp only [descByTimestamp, decide_eq_true_eq] at hab hbc ⊢
    omega
  have totalDesc : ∀ a b : Message, descByTimestamp a b || descByTimestamp b a := by
    intro a b
    simp only [descByTimestamp, Bool.or_eq_true, decide_eq_true_eq]
    omega
  have transAsc : ∀ a b c : Message,
      ascByTimestamp a b → ascByTimestamp b c → ascByTimestamp a c := by
    intro a b c hab hbc
    simp only [ascByTimestamp, decide_eq_true_eq] at hab hbc ⊢
    omega
  have totalAsc : ∀ a b : Message, ascByTimestamp a b || ascByTimestamp b a := by
    intro a b
    simp only [ascByTimestamp, Bool.or_eq_true, decide_eq_true_eq]
    omega
  have hdescSorted :=
    List.sorted_mergeSort transDesc totalDesc (m.add role content).messages
  have hmemnew :
      (⟨role, content, m.clock⟩ : Message) ∈
        (m.add role content).messages.mergeSort descByTimestamp :=
    List.mem_mergeSort.mpr (by simp [ConversationMemory.add])
  have hmaxdesc : ∀ y ∈ (m.add role content).messages.mergeSort descByTimestamp,
      y = (⟨role, content, m.clock⟩ : Message) ∨ y.timestamp < m.clock :=
    fun y hy => hmax y (List.mem_mergeSort.mp hy)
  obtain ⟨t, ht⟩ := eq_cons_of_max
    (hdescSorted.imp (fun hab => by
      simpa [descByTimestamp] using hab))
    hmemnew hmaxdesc
  obtain ⟨k, hk⟩ : ∃ k, effectiveLimit m.max_messages n = k + 1 :=
    ⟨effectiveLimit m.max_messages n - 1, by omega⟩
  have hGR : (m.add role content).get_recentMsgs n =
      (((m.add role content).messages.mergeSort descByTimestamp).take
        (effectiveLimit m.max_messages n)).mergeSort ascByTimestamp := rfl
  have hnewrec : (⟨role, content, m.clock⟩ : Message) ∈
      ((m.add role content).messages.mergeSort descByTimestamp).take
        (effectiveLimit m.max_messages n) := by
    rw [ht, hk]
    simp
  have hchronSorted := List.sorted_mergeSort transAsc totalAsc
    (((m.add role content).messages.mergeSort descByTimestamp).take
      (effectiveLimit m.max_messages n))
  have hnewchron : (⟨role, content, m.clock⟩ : Message) ∈
      (m.add role content).get_recentMsgs n := by
    rw [hGR]
    exact List.mem_mergeSort.mpr hnewrec
  have hmaxchron : ∀ y ∈ (m.add role content).get_recentMsgs n,
      y = (⟨role, content, m.clock⟩ : Message) ∨ y.timestamp < m.clock := by
    intro y hy
    rw [hGR] at hy
    exact hmaxdesc y (List.take_subset _ _ (List.mem_mergeSort.mp hy))
  have hpair : ((m.add role content).get_recentMsgs n).Pairwise
      (fun a b => a.timestamp ≤ b.timestamp) := by
    rw [hGR]
    exact hchronSorted.imp (fun hab => by
      simpa [ascByTimestamp] using hab)
  have hlast : ((m.add role content).get_recentMsgs n).getLast? =
      some ⟨role, content, m.clock⟩ :=
    getLast?_eq_of_max hpair hnewchron hmaxchron
  refine ⟨hpair, hlast, ?_⟩
  simp [ConversationMemory.get_recent, hlast]

/-- Witness for C7: inserting into the empty store and reading back. -/
theorem add_get_recent_chronological_witness :
    ((memZero.add "user" "hi there").get_recentMsgs none).Pairwise
      (fun a b => a.timestamp ≤ b.timestamp) ∧
    ((memZero.add "user" "hi there").get_recentMsgs none).getLast? =
      some ⟨"user", "hi there", 0⟩ ∧
    ((memZero.add "user" "hi there").get_recent none).getLast? =
      some ("user", "hi there") :=
  add_get_recent_chronological memZero
    ⟨List.Pairwise.nil, by simp [memZero]⟩
    "user" "hi there" none (by decide)
